import Mathlib

/-!
Shallow embedding of the rewards/points ledger of the
bus-payments-offers-rewards service: the `Reward` model (app/models.py)
and the route handlers that mutate it (app/routes/rewards.py,
app/routes/payments.py, app/routes/refund_system.py).

Modelling conventions:
* Timestamps are natural numbers (days since an epoch);
  `datetime.utcnow()` becomes an explicit `now` argument and
  `timedelta(days=n)` becomes `+ n`.
* Monetary amounts are integer cents; the payment amount column is
  `Numeric(10,2)`, so cents are exact.  Python `Decimal` division
  followed by `int(...)` truncation on non-negative operands is modelled
  as exact integer arithmetic: `int((a / b) * c)` becomes `(a * c) / b`
  with Euclidean division (both agree with floor on the non-negative
  operands the guarded code paths produce).
* Each Flask handler is embedded as a pure function from the relevant
  table state to a result paired with the post-call table state; an early
  error return (`return jsonify(error), 4xx`) becomes `Except.error`
  carrying the error kind, and the returned state records exactly the
  mutations committed before that return (an exception inside a handler
  triggers `db.session.rollback()`, so uncommitted work never persists).
* The informational `dollar_value` column (computed from float
  arithmetic at creation and never read back by any ledger operation) is
  not modelled; neither are the customer table, the credit-card
  credit-limit bookkeeping, nor request parsing, which are collaborator
  concerns outside the ledger.
* A SQL `ORDER BY earned_date ASC` is modelled as a stable insertion
  sort on the row list.
-/

/-- RewardStatus enum from app/models.py. -/
inductive RewardStatus
  | EARNED
  | REDEEMED
  | EXPIRED
deriving DecidableEq

/-- PaymentStatus enum from app/models.py. -/
inductive PaymentStatus
  | PENDING
  | COMPLETED
  | FAILED
  | REFUNDED
deriving DecidableEq

/-- CreditCardProduct enum from app/models.py (the card tier used by
calculate_reward_points). -/
inductive CreditCardProduct
  | PLATINUM
  | GOLD
  | SILVER
  | BASIC
deriving DecidableEq

/-- A row of the rewards table (the Reward model in app/models.py): one
points lot.  `status_notes` is the transient Python attribute assigned by
cancel_points_redemption; it is not a declared column of the model, which
is recorded here so that the cancellation handler's only write to the
rewards row can be stated. -/
structure Reward where
  id : Nat
  customer_id : Nat
  payment_id : Option Nat := none
  points_earned : Int
  points_redeemed : Int := 0
  status : RewardStatus := RewardStatus.EARNED
  earned_date : Nat
  redeemed_date : Option Nat := none
  expiry_date : Option Nat := none
  status_notes : Option String := none
deriving DecidableEq

/-- The slice of the payments table the ledger reads: the Payment model's
id, owning customer (via its credit card), amount in cents, and status. -/
structure Payment where
  id : Nat
  customer_id : Nat
  amount : Int
  status : PaymentStatus
deriving DecidableEq

/-- The error kinds of the embedded handlers (the 4xx error responses of
the routes, one constructor per distinct message). -/
inductive LedgerError
  | notFound
  | notAvailableForRedemption
  | rewardExpired
  | nonPositivePoints
  | insufficientPoints
  | alreadyRefunded
  | onlyCompletedRefundable
  | invalidRefundAmount
  | invalidCancelStatus
  | invalidPaymentAmount
deriving DecidableEq

instance {e a : Type} [DecidableEq e] [DecidableEq a] : DecidableEq (Except e a) := fun x y =>
  match x, y with
  | Except.error u, Except.error v => decidable_of_iff (u = v) (by simp)
  | Except.ok u, Except.ok v => decidable_of_iff (u = v) (by simp)
  | Except.error _, Except.ok _ => isFalse (fun hc => Except.noConfusion hc)
  | Except.ok _, Except.error _ => isFalse (fun hc => Except.noConfusion hc)

/-- Sum of points_earned over the customer's lots with status != EXPIRED
(the total_earned query of get_customer_balance, rewards.py). -/
def total_earned (rs : List Reward) (cid : Nat) : Int :=
  ((rs.filter fun r => r.customer_id == cid && r.status != RewardStatus.EXPIRED).map
    Reward.points_earned).sum

/-- Sum of points_redeemed over all of the customer's lots — note: no
status filter (the total_redeemed query of get_customer_balance,
rewards.py). -/
def total_redeemed (rs : List Reward) (cid : Nat) : Int :=
  ((rs.filter fun r => r.customer_id == cid).map Reward.points_redeemed).sum

/-- available_points = total_earned - total_redeemed
(get_customer_balance, rewards.py). -/
def available_points (rs : List Reward) (cid : Nat) : Int :=
  total_earned rs cid - total_redeemed rs cid

/-- The balance formula as the specification words it: the sum of
(points_earned - points_redeemed) over exactly the customer's lots whose
status is not EXPIRED.  Stated for comparison with `available_points`,
which is what the code computes. -/
def specAvailable (rs : List Reward) (cid : Nat) : Int :=
  ((rs.filter fun r => r.customer_id == cid && r.status != RewardStatus.EXPIRED).map
    fun r => r.points_earned - r.points_redeemed).sum

/-- The candidate filter of redeem_customer_points (rewards.py): the
customer's lots with status EARNED whose expiry_date is NULL or in the
future (`Reward.expiry_date > now`). -/
def isRedeemable (cid now : Nat) (r : Reward) : Bool :=
  r.customer_id == cid && r.status == RewardStatus.EARNED &&
    (match r.expiry_date with
     | none => true
     | some e => decide (now < e))

/-- Row order of `ORDER BY earned_date ASC`. -/
def byDate (a b : Reward) : Prop := a.earned_date ≤ b.earned_date

instance : DecidableRel byDate := fun a b => Nat.decLe a.earned_date b.earned_date

instance : IsTotal Reward byDate := ⟨fun a b => Nat.le_total a.earned_date b.earned_date⟩

instance : IsTrans Reward byDate := ⟨fun _ _ _ h h2 => Nat.le_trans h h2⟩

/-- The candidate query of redeem_customer_points: filter, then order by
earned_date ascending (stable sort standing in for the SQL ORDER BY). -/
def candidateRewards (rs : List Reward) (cid now : Nat) : List Reward :=
  List.insertionSort byDate (rs.filter (isRedeemable cid now))

/-- The FIFO allocation loop of redeem_customer_points: walk the
candidates in order; stop when nothing remains to redeem; skip lots with
no points available; otherwise take min(remaining, available) from the
lot.  Returns the (reward id, points taken) pairs in allocation order. -/
def fifoAlloc : List Reward → Int → List (Nat × Int)
  | [], _ => []
  | r :: rest, remaining =>
    if remaining ≤ 0 then []
    else
      if r.points_earned - r.points_redeemed ≤ 0 then fifoAlloc rest remaining
      else
        let take := min remaining (r.points_earned - r.points_redeemed)
        (r.id, take) :: fifoAlloc rest (remaining - take)

/-- The allocation rule as the specification words it: from each candidate
in order take `min(remaining, points_earned - points_redeemed)` until the
request is satisfied (a lot from which the take would be nothing gives
nothing).  Stated for comparison with `fifoAlloc`. -/
def specTake : List Reward → Int → List (Nat × Int)
  | [], _ => []
  | r :: rest, remaining =>
    if remaining ≤ 0 then []
    else
      let take := min remaining (r.points_earned - r.points_redeemed)
      if take ≤ 0 then specTake rest remaining
      else (r.id, take) :: specTake rest (remaining - take)

/-- First allocation recorded for a given reward id, if any. -/
def lookupAlloc (allocs : List (Nat × Int)) (i : Nat) : Option Int :=
  (allocs.find? fun p => p.1 == i).map Prod.snd

/-- The per-lot mutation of the redeem_customer_points loop: add the
allocated amount to points_redeemed, set redeemed_date only if not yet
set, and set status to REDEEMED when the lot becomes exactly
exhausted (`points_redeemed >= points_earned`). -/
def applyCustRedeem (now : Nat) (amt : Int) (r : Reward) : Reward :=
  { r with
    points_redeemed := r.points_redeemed + amt
    redeemed_date := some (r.redeemed_date.getD now)
    status := if r.points_earned ≤ r.points_redeemed + amt then RewardStatus.REDEEMED
              else r.status }

/-- Commit the allocations of a customer-level redemption to the rewards
table: each allocated row is mutated by `applyCustRedeem`, all other rows
are untouched. -/
def applyAllocs (now : Nat) (allocs : List (Nat × Int)) (rs : List Reward) : List Reward :=
  rs.map fun r =>
    match lookupAlloc allocs r.id with
    | none => r
    | some a => applyCustRedeem now a r

/-- redeem_customer_points (rewards.py): redeem points from the
customer's total available balance, FIFO over EARNED unexpired lots.
Error paths occur before any mutation, so they return the state
unchanged. -/
def redeem_customer_points (rs : List Reward) (cid now : Nat) (pts : Int) :
    Except LedgerError (List (Nat × Int)) × List Reward :=
  if pts ≤ 0 then (Except.error LedgerError.nonPositivePoints, rs)
  else
    let cands := candidateRewards rs cid now
    let total := (cands.map fun r => r.points_earned - r.points_redeemed).sum
    if total < pts then (Except.error LedgerError.insufficientPoints, rs)
    else
      let allocs := fifoAlloc cands pts
      (Except.ok allocs, applyAllocs now allocs rs)

/-- The per-lot mutation of the single-lot redeem_reward handler: add the
amount to points_redeemed, set redeemed_date unconditionally, and set
status to REDEEMED when the lot is exhausted. -/
def applyLotRedeem (now : Nat) (amt : Int) (r : Reward) : Reward :=
  { r with
    points_redeemed := r.points_redeemed + amt
    redeemed_date := some now
    status := if r.points_earned ≤ r.points_redeemed + amt then RewardStatus.REDEEMED
              else r.status }

/-- The sweep mutation: set status to EXPIRED, touch nothing else. -/
def setExpired (r : Reward) : Reward := { r with status := RewardStatus.EXPIRED }

/-- Update every row with the given primary key (unique in a well-formed
table) by f; leave other rows untouched. -/
def updateLot (rs : List Reward) (rid : Nat) (f : Reward → Reward) : List Reward :=
  rs.map fun r => if r.id == rid then f r else r

/-- redeem_reward (rewards.py): redeem points from one lot.  `ptsArg` is
the optional request-body amount; when absent the handler defaults it to
the lot's remaining points.  Note the expired-lot path: the handler sets
the lot's status to EXPIRED and commits before returning the error, so
that path returns a mutated state. -/
def redeem_reward (rs : List Reward) (rid now : Nat) (ptsArg : Option Int) :
    Except LedgerError Int × List Reward :=
  match rs.find? fun r => r.id == rid with
  | none => (Except.error LedgerError.notFound, rs)
  | some r =>
    if r.status ≠ RewardStatus.EARNED then
      (Except.error LedgerError.notAvailableForRedemption, rs)
    else if (match r.expiry_date with
             | some e => decide (e < now)
             | none => false) then
      (Except.error LedgerError.rewardExpired, updateLot rs rid setExpired)
    else
      let pts := ptsArg.getD (r.points_earned - r.points_redeemed)
      if pts ≤ 0 then (Except.error LedgerError.nonPositivePoints, rs)
      else if r.points_earned - r.points_redeemed < pts then
        (Except.error LedgerError.insufficientPoints, rs)
      else (Except.ok pts, updateLot rs rid (applyLotRedeem now pts))

/-- Number of decimal digits of a natural number (1 for 0); the first
argument is fuel, always called with fuel at least the number itself. -/
def digitCountAux : Nat → Nat → Nat
  | 0, _ => 1
  | fuel + 1, n => if n < 10 then 1 else digitCountAux fuel (n / 10) + 1

/-- Number of decimal digits of a natural number. -/
def digitCount (n : Nat) : Nat := digitCountAux n n

/-- Does the positive rational num/den satisfy 10 ^ k <= num/den? -/
def tenPowLE (k : Int) (num den : Nat) : Bool :=
  if 0 ≤ k then decide (den * 10 ^ k.toNat ≤ num)
  else decide (den ≤ num * 10 ^ (-k).toNat)

/-- Floor of the base-10 logarithm of the positive rational num/den. -/
def floorLog10 (num den : Nat) : Int :=
  let k : Int := (digitCount num : Int) - (digitCount den : Int)
  if tenPowLE k num den then k else k - 1

/-- Round the non-negative rational num/den to p significant decimal
digits with ties to even (the rounding applied by Python's default
decimal context to every inexact operation result); the returned pair
(c, s) denotes the value c / 10 ^ s, where s may be negative. -/
def roundSigRat (p : Nat) (num den : Nat) : Nat × Int :=
  if num = 0 then (0, 0)
  else
    let s : Int := (p : Int) - 1 - floorLog10 num den
    let n2 : Nat := if 0 ≤ s then num * 10 ^ s.toNat else num
    let d2 : Nat := if 0 ≤ s then den else den * 10 ^ (-s).toNat
    let q := n2 / d2
    let r := n2 % d2
    let c := if d2 < 2 * r then q + 1
             else if 2 * r < d2 then q
             else if q % 2 = 0 then q else q + 1
    (c, s)

/-- Truncate the value c / 10 ^ s (both components of a `roundSigRat`
result) to a natural number, as Python's int() does on a non-negative
Decimal. -/
def truncPow10 : Nat × Int → Nat
  | (c, s) => if 0 ≤ s then c / 10 ^ s.toNat else c * 10 ^ (-s).toNat

/-- The proportional deduction `int((Decimal(rc) / Decimal(ac)) * pe)` of
refund_payment for positive cent amounts rc <= ac and a non-negative
point count pe, computed the way Python's decimal module does under its
default context: the exact quotient rc/ac is rounded to 28 significant
digits (half-even), that result is multiplied by pe and rounded to 28
significant digits again, and the product is truncated toward zero.
Because of the 28-digit intermediate rounding this can differ from the
exact floor of rc * pe / ac: for rc = 100, ac = 300, pe = 3 the quotient
rounds to 0.3333...3, the product to 0.9999...9, and the truncation
yields 0 where the exact floor is 1. -/
def decimalDeduct (rc ac pe : Nat) : Nat :=
  if rc = 0 ∨ ac = 0 ∨ pe = 0 then 0
  else
    let d1 := roundSigRat 28 rc ac
    let num2 : Nat := if 0 ≤ d1.2 then d1.1 * pe else d1.1 * pe * 10 ^ (-d1.2).toNat
    let den2 : Nat := if 0 ≤ d1.2 then 10 ^ d1.2.toNat else 1
    truncPow10 (roundSigRat 28 num2 den2)

/-- Integer-signed wrapper for `decimalDeduct`: Decimal arithmetic is
sign-magnitude and int() truncates toward zero, so a negative
points_earned (unreachable through the guarded handlers) negates the
magnitude computation; the refund handler guarantees
0 < refundAmt <= payAmt whenever this runs. -/
def clawDeduct (refundAmt payAmt pe : Int) : Int :=
  if 0 ≤ pe then (decimalDeduct refundAmt.toNat payAmt.toNat pe.toNat : Int)
  else -(decimalDeduct refundAmt.toNat payAmt.toNat (-pe).toNat : Int)

/-- The per-lot clawback of refund_payment (payments.py): only lots in
EARNED status are touched; the proportional deduction
`int((refund_amount / payment.amount) * points_earned)` — 28-digit
decimal arithmetic, see `decimalDeduct` — is OVERWRITTEN into
points_redeemed, capped above by points_earned, and the lot becomes
REDEEMED when the cap is hit. -/
def clawback (refundAmt payAmt : Int) (r : Reward) : Reward :=
  if r.status = RewardStatus.EARNED then
    let deduct := clawDeduct refundAmt payAmt r.points_earned
    let redeemedNew := min r.points_earned deduct
    { r with
      points_redeemed := redeemedNew
      status := if redeemedNew = r.points_earned then RewardStatus.REDEEMED else r.status }
  else r

/-- refund_payment (payments.py): refund a completed payment.  `refundArg`
is the optional request-body amount, defaulting to the full payment
amount; a full refund flips the payment to REFUNDED; every reward sourced
by the payment is passed through `clawback`.  (The credit-card
available-credit restoration is collaborator state, not modelled.) -/
def refund_payment (rs : List Reward) (ps : List Payment) (pid : Nat)
    (refundArg : Option Int) :
    Except LedgerError Int × List Reward × List Payment :=
  match ps.find? fun p => p.id == pid with
  | none => (Except.error LedgerError.notFound, rs, ps)
  | some p =>
    if p.status = PaymentStatus.REFUNDED then
      (Except.error LedgerError.alreadyRefunded, rs, ps)
    else if p.status ≠ PaymentStatus.COMPLETED then
      (Except.error LedgerError.onlyCompletedRefundable, rs, ps)
    else
      let refundAmt := refundArg.getD p.amount
      if refundAmt ≤ 0 ∨ p.amount < refundAmt then
        (Except.error LedgerError.invalidRefundAmount, rs, ps)
      else
        let ps2 := if refundAmt = p.amount
          then ps.map fun q =>
            if q.id == pid then { q with status := PaymentStatus.REFUNDED } else q
          else ps
        let rs2 := rs.map fun r =>
          if r.payment_id == some pid then clawback refundAmt p.amount r else r
        (Except.ok refundAmt, rs2, ps2)

/-- The row appended to the redemption_cancellations table by
cancel_points_redemption. -/
structure RedemptionCancellation where
  original_reward_id : Nat
  points_to_restore : Int
  cancellation_fee_points : Int
  net_points_restored : Int
deriving DecidableEq

/-- cancel_points_redemption (refund_system.py): cancel a points
redemption.  Permitted only on EARNED or REDEEMED lots; computes
points_to_restore from points_earned; charges a 5 percent fee
(`int(points_to_restore * 0.05)`, embedded as the exact floor) only when
the lot is REDEEMED; records a cancellation row.  Its ONLY write to the
rewards table is the transient status_notes attribute — points_redeemed,
status, and dates of the original reward are left untouched. -/
def cancel_points_redemption (rs : List Reward) (rid : Nat) (reason : String) :
    Except LedgerError RedemptionCancellation × List Reward :=
  match rs.find? fun r => r.id == rid with
  | none => (Except.error LedgerError.notFound, rs)
  | some r =>
    if r.status = RewardStatus.EARNED ∨ r.status = RewardStatus.REDEEMED then
      let ptr := r.points_earned
      let fee := if r.status = RewardStatus.REDEEMED then (ptr * 5) / 100 else 0
      (Except.ok
        { original_reward_id := rid
          points_to_restore := ptr
          cancellation_fee_points := fee
          net_points_restored := ptr - fee },
       updateLot rs rid fun q => { q with status_notes := some reason })
    else
      (Except.error LedgerError.invalidCancelStatus, rs)

/-- The sweep condition of expire_rewards (rewards.py): status EARNED and
expiry_date strictly before now (a NULL expiry_date never satisfies the
SQL comparison, so lots without expiry are never swept). -/
def isExpirable (now : Nat) (r : Reward) : Bool :=
  r.status == RewardStatus.EARNED &&
    (match r.expiry_date with
     | some e => decide (e < now)
     | none => false)

/-- expire_rewards (rewards.py): sweep every EARNED lot whose expiry_date
has passed to EXPIRED, returning the number of lots swept. -/
def expire_rewards (rs : List Reward) (now : Nat) : Nat × List Reward :=
  ((rs.filter (isExpirable now)).length,
   rs.map fun r => if isExpirable now r then setExpired r else r)

/-- calculate_reward_points (payments.py): 1 point per whole dollar
spent times the card-tier multiplier (PLATINUM 3.0, GOLD 2.0, SILVER
1.5, BASIC 1.0), truncated to an integer. -/
def calculate_reward_points (amountCents : Int) (product : CreditCardProduct) : Int :=
  let base := amountCents / 100
  match product with
  | CreditCardProduct.PLATINUM => base * 3
  | CreditCardProduct.GOLD => base * 2
  | CreditCardProduct.SILVER => (base * 3) / 2
  | CreditCardProduct.BASIC => base

/-- Auto-increment primary key for a new rewards row. -/
def nextRewardId (rs : List Reward) : Nat :=
  ((rs.map Reward.id).foldr max 0) + 1

/-- Auto-increment primary key for a new payments row. -/
def nextPaymentId (ps : List Payment) : Nat :=
  ((ps.map Payment.id).foldr max 0) + 1

/-- make_payment (payments.py), restricted to the ledger-relevant slice:
a positive-amount payment is recorded as COMPLETED and, when the computed
points are positive, a fresh EARNED lot sourced by the payment is created
with points_redeemed 0, earned_date now and expiry_date now + 365 days. -/
def make_payment (rs : List Reward) (ps : List Payment) (cid : Nat)
    (amountCents : Int) (product : CreditCardProduct) (now : Nat) :
    Except LedgerError Int × List Reward × List Payment :=
  if amountCents ≤ 0 then (Except.error LedgerError.invalidPaymentAmount, rs, ps)
  else
    let pid := nextPaymentId ps
    let payment : Payment :=
      { id := pid, customer_id := cid, amount := amountCents,
        status := PaymentStatus.COMPLETED }
    let pts := calculate_reward_points amountCents product
    if 0 < pts then
      (Except.ok pts,
       rs ++ [{ id := nextRewardId rs
                customer_id := cid
                payment_id := some pid
                points_earned := pts
                points_redeemed := 0
                status := RewardStatus.EARNED
                earned_date := now
                redeemed_date := none
                expiry_date := some (now + 365) }],
       ps ++ [payment])
    else (Except.ok pts, rs, ps ++ [payment])

/-- create_manual_reward (rewards.py), ledger-relevant slice: a manual
grant of positive points creates a fresh EARNED lot with no source
payment; the expiry defaults to now + 730 days when the request carries
none. -/
def create_manual_reward (rs : List Reward) (cid : Nat) (pts : Int)
    (expiryArg : Option Nat) (now : Nat) :
    Except LedgerError Nat × List Reward :=
  if pts ≤ 0 then (Except.error LedgerError.nonPositivePoints, rs)
  else
    let rid := nextRewardId rs
    (Except.ok rid,
     rs ++ [{ id := rid
              customer_id := cid
              points_earned := pts
              points_redeemed := 0
              status := RewardStatus.EARNED
              earned_date := now
              redeemed_date := none
              expiry_date := some (expiryArg.getD (now + 730)) }])

/-- The two ledger tables the claims range over. -/
structure LedgerState where
  rewards : List Reward
  payments : List Payment
deriving DecidableEq

/-- One invocation of a mutating ledger operation, with its request
parameters. -/
inductive LedgerOp
  | payment (cid : Nat) (amountCents : Int) (product : CreditCardProduct) (now : Nat)
  | manualReward (cid : Nat) (pts : Int) (expiryArg : Option Nat) (now : Nat)
  | lotRedeem (rid now : Nat) (ptsArg : Option Int)
  | customerRedeem (cid now : Nat) (pts : Int)
  | refund (pid : Nat) (refundArg : Option Int)
  | cancel (rid : Nat) (reason : String)
  | sweep (now : Nat)

/-- The table state left behind by one operation (its response value is
dropped; error responses leave behind exactly the state the handler had
committed). -/
def applyOp : LedgerOp → LedgerState → LedgerState
  | LedgerOp.payment cid amt product now, s =>
      let out := make_payment s.rewards s.payments cid amt product now
      { rewards := out.2.1, payments := out.2.2 }
  | LedgerOp.manualReward cid pts expiryArg now, s =>
      { s with rewards := (create_manual_reward s.rewards cid pts expiryArg now).2 }
  | LedgerOp.lotRedeem rid now ptsArg, s =>
      { s with rewards := (redeem_reward s.rewards rid now ptsArg).2 }
  | LedgerOp.customerRedeem cid now pts, s =>
      { s with rewards := (redeem_customer_points s.rewards cid now pts).2 }
  | LedgerOp.refund pid refundArg, s =>
      let out := refund_payment s.rewards s.payments pid refundArg
      { rewards := out.2.1, payments := out.2.2 }
  | LedgerOp.cancel rid reason, s =>
      { s with rewards := (cancel_points_redemption s.rewards rid reason).2 }
  | LedgerOp.sweep now, s =>
      { s with rewards := (expire_rewards s.rewards now).2 }

/-- Run a sequence of ledger operations. -/
def applyOps (ops : List LedgerOp) (s : LedgerState) : LedgerState :=
  ops.foldl (fun t op => applyOp op t) s

/-- The per-lot bounds invariant: 0 <= points_redeemed <= points_earned. -/
def LotOK (r : Reward) : Prop :=
  0 ≤ r.points_redeemed ∧ r.points_redeemed ≤ r.points_earned

instance : DecidablePred LotOK := fun r =>
  inferInstanceAs (Decidable (0 ≤ r.points_redeemed ∧ r.points_redeemed ≤ r.points_earned))

/-- Well-formed rewards table: primary keys are unique and every lot
satisfies the bounds invariant. -/
def RewardsWF (rs : List Reward) : Prop :=
  (rs.map Reward.id).Nodup ∧ ∀ r ∈ rs, LotOK r

instance : DecidablePred RewardsWF := fun rs =>
  inferInstanceAs (Decidable ((rs.map Reward.id).Nodup ∧ ∀ r ∈ rs, LotOK r))

/-- Well-formed ledger state. -/
def WF (s : LedgerState) : Prop := RewardsWF s.rewards

instance : DecidablePred WF := fun s => inferInstanceAs (Decidable (RewardsWF s.rewards))

def preSweepLot : Reward :=
  { id := 7
    customer_id := 4
    points_earned := 100
    points_redeemed := 30
    status := RewardStatus.EARNED
    earned_date := 0
    expiry_date := some 3 }

def fifoLotA : Reward := { id := 1, customer_id := 1, points_earned := 100, earned_date := 1 }

def fifoLotB : Reward := { id := 2, customer_id := 1, points_earned := 200, earned_date := 5 }

def fifoLotC : Reward := { id := 3, customer_id := 1, points_earned := 300, earned_date := 10 }

def fifoLots : List Reward := [fifoLotC, fifoLotA, fifoLotB]

def clawLot : Reward :=
  { id := 1
    customer_id := 2
    payment_id := some 7
    points_earned := 100
    points_redeemed := 80
    earned_date := 0 }

def clawPay : Payment := { id := 7, customer_id := 2, amount := 10000, status := PaymentStatus.COMPLETED }

def bigLot : Reward :=
  { id := 3
    customer_id := 5
    payment_id := some 11
    points_earned := 1000
    earned_date := 0 }

def bigPay : Payment := { id := 11, customer_id := 5, amount := 20000, status := PaymentStatus.COMPLETED }

def triLot : Reward :=
  { id := 4
    customer_id := 6
    payment_id := some 9
    points_earned := 3
    earned_date := 0 }

def triPay : Payment := { id := 9, customer_id := 6, amount := 300, status := PaymentStatus.COMPLETED }

def cancelDemoLot : Reward := { id := 1, customer_id := 1, points_earned := 200, earned_date := 0 }

def cancelDemoAfter : List Reward := (redeem_customer_points [cancelDemoLot] 1 10 100).2

def expiredEarnedLot : Reward :=
  { id := 5
    customer_id := 1
    points_earned := 50
    earned_date := 0
    expiry_date := some 3 }

def partialLot : Reward :=
  { id := 2
    customer_id := 1
    points_earned := 80
    points_redeemed := 30
    earned_date := 0 }

def demoStart : LedgerState := { rewards := [], payments := [] }

def demoOps : List LedgerOp :=
  [LedgerOp.payment 1 20000 CreditCardProduct.GOLD 0,
   LedgerOp.manualReward 1 50 none 1,
   LedgerOp.customerRedeem 1 2 120,
   LedgerOp.refund 1 (some 5000),
   LedgerOp.cancel 1 "demo",
   LedgerOp.lotRedeem 2 3 none,
   LedgerOp.sweep 400]

/-- Sum of points_redeemed over the customer's EXPIRED lots. -/
def expired_redeemed (rs : List Reward) (cid : Nat) : Int :=
  ((rs.filter fun r => r.customer_id == cid && r.status == RewardStatus.EXPIRED).map
    Reward.points_redeemed).sum

/-- A reward with its status replaced by a fixed placeholder, used to
state that an operation touches nothing but the status field. -/
def forgetStatus (r : Reward) : Reward := { r with status := RewardStatus.EARNED }


theorem available_points_eq (rs : List Reward) (cid : Nat) :
    available_points rs cid = specAvailable rs cid - expired_redeemed rs cid := by
  induction rs with
  | nil =>
    simp [available_points, specAvailable, expired_redeemed, total_earned, total_redeemed]
  | cons r t ih =>
    simp only [available_points, specAvailable, expired_redeemed, total_earned, total_redeemed,
      List.filter_cons] at ih ⊢
    by_cases h1 : r.customer_id = cid
    · by_cases h2 : r.status = RewardStatus.EXPIRED
      · simp [h1, h2]
        omega
      · simp [h1, h2]
        omega
    · simp [h1]
      omega

theorem sweep_preserves_redeemed (rs : List Reward) (now : Nat) :
    ((expire_rewards rs now).2.map Reward.points_redeemed) = rs.map Reward.points_redeemed := by
  simp only [expire_rewards, List.map_map]
  apply List.map_congr_left
  intro r _
  by_cases h : isExpirable now r
  · simp [h, setExpired]
  · simp [h]

theorem sweep_only_status (rs : List Reward) (now : Nat) :
    ((expire_rewards rs now).2.map forgetStatus) = rs.map forgetStatus := by
  simp only [expire_rewards, List.map_map]
  apply List.map_congr_left
  intro r _
  by_cases h : isExpirable now r
  · simp [h, setExpired, forgetStatus]
  · simp [h]

theorem sweep_status_char (rs : List Reward) (now : Nat) :
    List.Forall₂ (fun r r2 =>
      r2.status = if isExpirable now r then RewardStatus.EXPIRED else r.status)
      rs (expire_rewards rs now).2 := by
  simp only [expire_rewards]
  rw [List.forall₂_map_right_iff]
  rw [List.forall₂_same]
  intro r _
  by_cases h : isExpirable now r
  · simp [h, setExpired]
  · simp [h]

theorem sweep_not_expirable (now : Nat) (r : Reward) :
    isExpirable now (if isExpirable now r then setExpired r else r) = false := by
  by_cases h : isExpirable now r
  · rw [if_pos h]
    simp [isExpirable, setExpired]
  · rw [if_neg h]
    exact Bool.eq_false_iff.mpr h

theorem sweep_idem (rs : List Reward) (now : Nat) :
    expire_rewards (expire_rewards rs now).2 now = (0, (expire_rewards rs now).2) := by
  simp only [expire_rewards, List.map_map]
  rw [Prod.ext_iff]
  constructor
  · rw [List.length_eq_zero]
    rw [List.filter_eq_nil_iff]
    intro a ha
    simp only [List.mem_map] at ha
    obtain ⟨r, _, rfl⟩ := ha
    simp [sweep_not_expirable]
  · apply List.map_congr_left
    intro r _
    simp [sweep_not_expirable now r]

theorem fifoAlloc_nonpos (lots : List Reward) (rem : Int) (h : rem ≤ 0) :
    fifoAlloc lots rem = [] := by
  cases lots with
  | nil => rfl
  | cons r rest => simp [fifoAlloc, h]

theorem fifoAlloc_eq_specTake : ∀ (lots : List Reward) (rem : Int),
    fifoAlloc lots rem = specTake lots rem := by
  intro lots
  induction lots with
  | nil => intro rem; rfl
  | cons r rest ih =>
    intro rem
    simp only [fifoAlloc, specTake]
    by_cases h : rem ≤ 0
    · simp [h]
    · simp only [h, if_false]
      by_cases h2 : r.points_earned - r.points_redeemed ≤ 0
      · have hmin : min rem (r.points_earned - r.points_redeemed) ≤ 0 :=
          le_trans (min_le_right _ _) h2
        simp [h2, hmin, ih]
      · have hrem : 0 < rem := lt_of_not_ge h
        have hmin : ¬ min rem (r.points_earned - r.points_redeemed) ≤ 0 := by
          push_neg at h2 ⊢
          exact lt_min hrem h2
        simp [h2, hmin, ih]

theorem fifoAlloc_mem : ∀ (lots : List Reward) (rem : Int) (i : Nat) (a : Int),
    (i, a) ∈ fifoAlloc lots rem →
    ∃ c ∈ lots, c.id = i ∧ 0 < a ∧ a ≤ c.points_earned - c.points_redeemed := by
  intro lots
  induction lots with
  | nil => intro rem i a h; simp [fifoAlloc] at h
  | cons r rest ih =>
    intro rem i a h
    simp only [fifoAlloc] at h
    by_cases h0 : rem ≤ 0
    · simp [h0] at h
    · simp only [h0, if_false] at h
      by_cases h2 : r.points_earned - r.points_redeemed ≤ 0
      · simp only [h2, if_true] at h
        obtain ⟨c, hc, hrest⟩ := ih _ _ _ h
        exact ⟨c, List.mem_cons_of_mem _ hc, hrest⟩
      · simp only [h2, if_false, List.mem_cons] at h
        rcases h with h | h
        · simp only [Prod.mk.injEq] at h
          obtain ⟨h3, h4⟩ := h
          refine ⟨r, List.mem_cons_self _ _, h3.symm, ?_, ?_⟩
          · rw [h4]
            exact lt_min (lt_of_not_ge h0) (lt_of_not_ge h2)
          · rw [h4]
            exact min_le_right _ _
        · obtain ⟨c, hc, hrest⟩ := ih _ _ _ h
          exact ⟨c, List.mem_cons_of_mem _ hc, hrest⟩

theorem fifoAlloc_sum : ∀ (lots : List Reward) (rem : Int), 0 ≤ rem →
    rem ≤ ((lots.map fun r => r.points_earned - r.points_redeemed).sum) →
    ((fifoAlloc lots rem).map Prod.snd).sum = rem := by
  intro lots
  induction lots with
  | nil =>
    intro rem h0 hle
    simp only [List.map_nil, List.sum_nil] at hle
    have : rem = 0 := le_antisymm hle h0
    simp [this, fifoAlloc]
  | cons r rest ih =>
    intro rem h0 hle
    simp only [List.map_cons, List.sum_cons] at hle
    simp only [fifoAlloc]
    by_cases hr : rem ≤ 0
    · have : rem = 0 := le_antisymm hr h0
      simp [this]
    · simp only [hr, if_false]
      by_cases h2 : r.points_earned - r.points_redeemed ≤ 0
      · simp only [h2, if_true]
        apply ih rem h0
        omega
      · simp only [h2, if_false, List.map_cons, List.sum_cons]
        rcases le_or_lt rem (r.points_earned - r.points_redeemed) with hm | hm
        · rw [min_eq_left hm, sub_self, fifoAlloc_nonpos rest 0 le_rfl]
          simp
        · rw [min_eq_right (le_of_lt hm)]
          rw [ih (rem - (r.points_earned - r.points_redeemed)) (by omega) (by omega)]
          omega

theorem mem_candidateRewards {rs : List Reward} {cid now : Nat} {r : Reward} :
    r ∈ candidateRewards rs cid now ↔ r ∈ rs ∧ isRedeemable cid now r = true := by
  unfold candidateRewards
  rw [(List.perm_insertionSort byDate _).mem_iff, List.mem_filter]

theorem sorted_candidateRewards (rs : List Reward) (cid now : Nat) :
    List.Sorted byDate (candidateRewards rs cid now) :=
  List.sorted_insertionSort byDate _

theorem rcp_insufficient (rs : List Reward) (cid now : Nat) (pts : Int)
    (hpos : 0 < pts)
    (h : ((candidateRewards rs cid now).map fun r =>
      r.points_earned - r.points_redeemed).sum < pts) :
    redeem_customer_points rs cid now pts =
      (Except.error LedgerError.insufficientPoints, rs) := by
  simp only [redeem_customer_points]
  rw [if_neg (not_le.mpr hpos), if_pos h]

theorem rcp_enough (rs : List Reward) (cid now : Nat) (pts : Int)
    (hpos : 0 < pts)
    (hle : pts ≤ ((candidateRewards rs cid now).map fun r =>
      r.points_earned - r.points_redeemed).sum) :
    redeem_customer_points rs cid now pts =
      (Except.ok (fifoAlloc (candidateRewards rs cid now) pts),
       applyAllocs now (fifoAlloc (candidateRewards rs cid now) pts) rs) := by
  simp only [redeem_customer_points]
  rw [if_neg (not_le.mpr hpos), if_neg (not_lt.mpr hle)]

/-- C2 (confirmed).  For every customer and every positive requested
amount not exceeding the available balance, the customer-level redeem
operation succeeds and allocates over the candidate lots (status EARNED,
expiry_date null or in the future, exactly the lots of that customer
satisfying the candidate filter) in ascending earned_date order, taking
min(remaining, points_earned - points_redeemed) from each in turn until
the request is satisfied (the spec-worded rule specTake), and the
allocated amounts sum to the requested points. -/
theorem customer_redeem_fifo_allocation (rs : List Reward) (cid now : Nat) (pts : Int)
    (hpos : 0 < pts)
    (hle : pts ≤ ((candidateRewards rs cid now).map fun r =>
      r.points_earned - r.points_redeemed).sum) :
    redeem_customer_points rs cid now pts =
      (Except.ok (specTake (candidateRewards rs cid now) pts),
       applyAllocs now (specTake (candidateRewards rs cid now) pts) rs) ∧
    ((specTake (candidateRewards rs cid now) pts).map Prod.snd).sum = pts ∧
    List.Sorted byDate (candidateRewards rs cid now) ∧
    (∀ r, r ∈ candidateRewards rs cid now ↔ r ∈ rs ∧ isRedeemable cid now r = true) := by
  refine ⟨?_, ?_, sorted_candidateRewards rs cid now, fun r => mem_candidateRewards⟩
  · rw [← fifoAlloc_eq_specTake]
    exact rcp_enough rs cid now pts hpos hle
  · rw [← fifoAlloc_eq_specTake, fifoAlloc_sum _ _ (le_of_lt hpos) hle]

/-- C7 (corrected).  For every positive requested amount, the
customer-level redeem operation fails with the insufficient-points error
and leaves the state unchanged exactly when the request exceeds the
available balance over the customer's EARNED, non-expired lots at that
moment; otherwise it succeeds. -/
theorem customer_redeem_insufficient_iff (rs : List Reward) (cid now : Nat) (pts : Int)
    (hpos : 0 < pts) :
    (((redeem_customer_points rs cid now pts).1 =
        Except.error LedgerError.insufficientPoints ∧
      (redeem_customer_points rs cid now pts).2 = rs) ↔
      ((candidateRewards rs cid now).map fun r =>
        r.points_earned - r.points_redeemed).sum < pts) ∧
    (pts ≤ ((candidateRewards rs cid now).map fun r =>
        r.points_earned - r.points_redeemed).sum →
      ∃ allocs, redeem_customer_points rs cid now pts =
        (Except.ok allocs, applyAllocs now allocs rs)) := by
  constructor
  · constructor
    · rintro ⟨h1, _⟩
      by_contra hge
      push_neg at hge
      rw [rcp_enough rs cid now pts hpos hge] at h1
      exact Except.noConfusion h1
    · intro hlt
      rw [rcp_insufficient rs cid now pts hpos hlt]
      exact ⟨rfl, rfl⟩
  · intro hle
    exact ⟨_, rcp_enough rs cid now pts hpos hle⟩

theorem find_id_unique {rs : List Reward} {rid : Nat} {r x : Reward}
    (hnd : (rs.map Reward.id).Nodup)
    (hfind : rs.find? (fun q => q.id == rid) = some r)
    (hx : x ∈ rs) (hid : x.id = rid) : x = r := by
  have hr : r ∈ rs := List.mem_of_find?_eq_some hfind
  have hpr : r.id = rid := by simpa using List.find?_some hfind
  exact List.inj_on_of_nodup_map hnd hx hr (by rw [hid, hpr])

theorem lot_redeem_default_eq (rs : List Reward) (rid now : Nat) (r : Reward)
    (hfind : rs.find? (fun q => q.id == rid) = some r)
    (hst : r.status = RewardStatus.EARNED)
    (hexp : ∀ e, r.expiry_date = some e → ¬ e < now)
    (hrem : r.points_redeemed < r.points_earned) :
    redeem_reward rs rid now none =
      (Except.ok (r.points_earned - r.points_redeemed),
       updateLot rs rid (applyLotRedeem now (r.points_earned - r.points_redeemed))) := by
  simp only [redeem_reward, hfind]
  rw [if_neg (by simp [hst])]
  have hb : (match r.expiry_date with
             | some e => decide (e < now)
             | none => false) = false := by
    rcases hE : r.expiry_date with _ | e
    · rfl
    · simpa using hexp e hE
  rw [if_neg (by simp [hb])]
  simp only [Option.getD_none]
  rw [if_neg (by omega), if_neg (by omega)]

/-- C10 (confirmed).  For every EARNED, unexpired lot with a positive
remaining balance, the single-lot redeem operation invoked without an
explicit points amount redeems the entire remaining
points_earned - points_redeemed, after which the lot is exactly
exhausted and its status is REDEEMED. -/
theorem lot_redeem_default_full (rs : List Reward) (rid now : Nat) (r : Reward)
    (hnd : (rs.map Reward.id).Nodup)
    (hfind : rs.find? (fun q => q.id == rid) = some r)
    (hst : r.status = RewardStatus.EARNED)
    (hexp : ∀ e, r.expiry_date = some e → ¬ e < now)
    (hrem : r.points_redeemed < r.points_earned) :
    redeem_reward rs rid now none =
      (Except.ok (r.points_earned - r.points_redeemed),
       updateLot rs rid (applyLotRedeem now (r.points_earned - r.points_redeemed))) ∧
    ∀ x ∈ (redeem_reward rs rid now none).2, x.id = rid →
      x.points_redeemed = x.points_earned ∧ x.status = RewardStatus.REDEEMED := by
  have heq := lot_redeem_default_eq rs rid now r hfind hst hexp hrem
  refine ⟨heq, ?_⟩
  rw [heq]
  intro x hx hid
  simp only [updateLot, List.mem_map] at hx
  obtain ⟨y, hy, hxy⟩ := hx
  by_cases hc : y.id = rid
  · rw [if_pos (by simpa using hc)] at hxy
    have hyr : y = r := find_id_unique hnd hfind hy hc
    subst hyr
    subst hxy
    simp only [applyLotRedeem]
    constructor
    · omega
    · rw [if_pos (by omega)]
  · rw [if_neg (by simpa using hc)] at hxy
    subst hxy
    exact absurd hid hc

theorem rcp_err_state (rs : List Reward) (cid now : Nat) (pts : Int)
    (h : (redeem_customer_points rs cid now pts).1.isOk = false) :
    (redeem_customer_points rs cid now pts).2 = rs := by
  by_cases h1 : pts ≤ 0
  · simp [redeem_customer_points, h1]
  · by_cases h2 : ((candidateRewards rs cid now).map fun r =>
        r.points_earned - r.points_redeemed).sum < pts
    · rw [rcp_insufficient rs cid now pts (by omega) h2]
    · rw [rcp_enough rs cid now pts (by omega) (by omega)] at h
      simp [Except.isOk, Except.toBool] at h

theorem refund_err_state (rs : List Reward) (ps : List Payment) (pid : Nat)
    (refundArg : Option Int)
    (h : (refund_payment rs ps pid refundArg).1.isOk = false) :
    (refund_payment rs ps pid refundArg).2 = (rs, ps) := by
  simp only [refund_payment] at h ⊢
  rcases hf : ps.find? (fun p => p.id == pid) with _ | p
  · simp [hf]
  · simp only [hf] at h ⊢
    by_cases h1 : p.status = PaymentStatus.REFUNDED
    · simp [h1]
    · simp only [h1, if_false] at h ⊢
      by_cases h2 : p.status ≠ PaymentStatus.COMPLETED
      · simp [h2]
      · simp only [h2, if_false] at h ⊢
        by_cases h3 : refundArg.getD p.amount ≤ 0 ∨ p.amount < refundArg.getD p.amount
        · simp [h3]
        · simp only [h3, if_false] at h
          simp [Except.isOk, Except.toBool] at h

theorem cancel_err_state (rs : List Reward) (rid : Nat) (reason : String)
    (h : (cancel_points_redemption rs rid reason).1.isOk = false) :
    (cancel_points_redemption rs rid reason).2 = rs := by
  simp only [cancel_points_redemption] at h ⊢
  rcases hf : rs.find? (fun r => r.id == rid) with _ | r
  · simp [hf]
  · simp only [hf] at h ⊢
    by_cases h1 : r.status = RewardStatus.EARNED ∨ r.status = RewardStatus.REDEEMED
    · simp only [h1, if_true] at h
      simp [Except.isOk, Except.toBool] at h
    · simp [h1]

theorem lot_redeem_err_state (rs : List Reward) (rid now : Nat) (ptsArg : Option Int)
    (h : (redeem_reward rs rid now ptsArg).1.isOk = false) :
    (redeem_reward rs rid now ptsArg).2 = rs ∨
      ((redeem_reward rs rid now ptsArg).1 = Except.error LedgerError.rewardExpired ∧
       (redeem_reward rs rid now ptsArg).2 = updateLot rs rid setExpired) := by
  simp only [redeem_reward] at h ⊢
  rcases hf : rs.find? (fun r => r.id == rid) with _ | r
  · simp [hf]
  · simp only [hf] at h ⊢
    by_cases h1 : r.status ≠ RewardStatus.EARNED
    · simp [h1]
    · simp only [h1, if_false] at h ⊢
      by_cases h2 : (match r.expiry_date with
                     | some e => decide (e < now)
                     | none => false) = true
      · simp [h2]
      · simp only [h2, if_false] at h ⊢
        by_cases h3 : ptsArg.getD (r.points_earned - r.points_redeemed) ≤ 0
        · simp [h3]
        · simp only [h3, if_false] at h ⊢
          by_cases h4 : r.points_earned - r.points_redeemed <
              ptsArg.getD (r.points_earned - r.points_redeemed)
          · simp [h4]
          · simp only [h4, if_false] at h
            simp [Except.isOk, Except.toBool] at h

/-- C3 (corrected).  For every refund of a completed payment with
0 < refundAmount <= originalAmount, each lot sourced by that payment in
EARNED status gets points_redeemed OVERWRITTEN with
min(points_earned, clawDeduct refundAmount amount points_earned), where
clawDeduct is `int((refund/amount) * points_earned)` in Python's
28-significant-digit decimal arithmetic: truncation rather than
rounding (and, because of the intermediate 28-digit roundings, possibly
one below the exact floor), and an assignment that may decrease a
previously larger points_redeemed - while lots in other statuses are
untouched; the result never exceeds points_earned and is
non-negative. -/
theorem refund_clawback_amended (rs : List Reward) (ps : List Payment) (pid : Nat)
    (refundArg : Option Int) (p : Payment)
    (hfind : ps.find? (fun q => q.id == pid) = some p)
    (hst : p.status = PaymentStatus.COMPLETED)
    (hpos : 0 < refundArg.getD p.amount)
    (hle : refundArg.getD p.amount ≤ p.amount) :
    (refund_payment rs ps pid refundArg).1 = Except.ok (refundArg.getD p.amount) ∧
    List.Forall₂ (fun r r2 =>
      (¬(r.payment_id = some pid ∧ r.status = RewardStatus.EARNED) → r2 = r) ∧
      (r.payment_id = some pid → r.status = RewardStatus.EARNED →
        r2.points_redeemed =
          min r.points_earned
            (clawDeduct (refundArg.getD p.amount) p.amount r.points_earned) ∧
        r2.points_redeemed ≤ r.points_earned ∧
        (0 ≤ r.points_earned → 0 ≤ r2.points_redeemed) ∧
        r2.points_earned = r.points_earned ∧
        r2.status = (if r2.points_redeemed = r.points_earned then RewardStatus.REDEEMED
                     else r.status)))
      rs (refund_payment rs ps pid refundArg).2.1 := by
  have heq : refund_payment rs ps pid refundArg =
      (Except.ok (refundArg.getD p.amount),
       rs.map (fun r =>
         if r.payment_id == some pid then clawback (refundArg.getD p.amount) p.amount r else r),
       if refundArg.getD p.amount = p.amount
         then ps.map fun q =>
           if q.id == pid then { q with status := PaymentStatus.REFUNDED } else q
         else ps) := by
    simp only [refund_payment, hfind]
    rw [if_neg (by simp [hst]), if_neg (by simp [hst]), if_neg (by omega)]
  rw [heq]
  refine ⟨rfl, ?_⟩
  simp only
  rw [List.forall₂_map_right_iff, List.forall₂_same]
  intro r _
  by_cases hp : r.payment_id = some pid
  · rw [if_pos (by simpa using hp)]
    by_cases hs : r.status = RewardStatus.EARNED
    · constructor
      · intro hnot
        exact absurd ⟨hp, hs⟩ hnot
      · intro _ _
        simp only [clawback, if_pos hs]
        refine ⟨by trivial, min_le_left _ _, ?_, by trivial, by trivial⟩
        intro he
        refine le_min he ?_
        simp only [clawDeduct, if_pos he]
        exact Int.natCast_nonneg _
    · simp only [clawback, if_neg hs]
      exact ⟨fun _ => by trivial, fun _ hs2 => absurd hs2 hs⟩
  · rw [if_neg (by simpa using hp)]
    exact ⟨fun _ => rfl, fun hp2 _ => absurd hp2 hp⟩

/-- C9 (corrected).  Every completed payment that earns a positive
number of points appends exactly one fresh EARNED lot sourced by that
payment, with points_redeemed 0 and expiry_date equal to its earned date
plus 365 days (not 730). -/
theorem payment_lot_expiry (rs : List Reward) (ps : List Payment) (cid : Nat)
    (amt : Int) (product : CreditCardProduct) (now : Nat)
    (hamt : 0 < amt) (hpts : 0 < calculate_reward_points amt product) :
    (∃ r, (make_payment rs ps cid amt product now).2.1 = rs ++ [r] ∧
       r.expiry_date = some (now + 365) ∧ r.earned_date = now ∧
       r.payment_id = some (nextPaymentId ps) ∧
       r.points_earned = calculate_reward_points amt product ∧
       r.points_redeemed = 0 ∧ r.status = RewardStatus.EARNED) ∧
    (∃ q, (make_payment rs ps cid amt product now).2.2 = ps ++ [q] ∧
       q.status = PaymentStatus.COMPLETED ∧ q.amount = amt) := by
  simp only [make_payment]
  rw [if_neg (by omega), if_pos hpts]
  exact ⟨⟨_, rfl, rfl, rfl, rfl, rfl, rfl, rfl⟩, ⟨_, rfl, rfl, rfl⟩⟩

theorem map_ids_eq {rs : List Reward} {f : Reward → Reward}
    (h : ∀ r ∈ rs, (f r).id = r.id) :
    (rs.map f).map Reward.id = rs.map Reward.id := by
  rw [List.map_map]
  exact List.map_congr_left (fun a ha => h a ha)

theorem mem_le_foldr_max : ∀ (l : List Nat) (i : Nat), i ∈ l → i ≤ l.foldr max 0 := by
  intro l
  induction l with
  | nil => intro i h; cases h
  | cons a t ih =>
    intro i h
    rcases List.mem_cons.mp h with rfl | h2
    · exact le_max_left _ _
    · exact le_trans (ih i h2) (le_max_right _ _)

theorem nextRewardId_fresh (rs : List Reward) : nextRewardId rs ∉ rs.map Reward.id := by
  intro h
  have := mem_le_foldr_max _ _ h
  unfold nextRewardId at this
  omega

theorem append_fresh_nodup {rs : List Reward} {r : Reward}
    (hnd : (rs.map Reward.id).Nodup) (hfresh : r.id ∉ rs.map Reward.id) :
    ((rs ++ [r]).map Reward.id).Nodup := by
  rw [List.map_append, List.nodup_append]
  refine ⟨hnd, List.nodup_singleton _, ?_⟩
  intro a ha hb
  simp only [List.map_cons, List.map_nil, List.mem_singleton] at hb
  subst hb
  exact hfresh ha

theorem updateLot_WF {rs : List Reward} {rid : Nat} {f : Reward → Reward}
    (hnd : (rs.map Reward.id).Nodup) (hok : ∀ r ∈ rs, LotOK r)
    (hid : ∀ r, (f r).id = r.id)
    (hpres : ∀ r ∈ rs, r.id = rid → LotOK (f r)) :
    ((updateLot rs rid f).map Reward.id).Nodup ∧ ∀ x ∈ updateLot rs rid f, LotOK x := by
  constructor
  · unfold updateLot
    rw [map_ids_eq]
    · exact hnd
    · intro r _
      by_cases h : r.id = rid
      · rw [if_pos (by simpa using h)]
        exact hid r
      · rw [if_neg (by simpa using h)]
  · intro x hx
    simp only [updateLot, List.mem_map] at hx
    obtain ⟨y, hy, hxy⟩ := hx
    by_cases h : y.id = rid
    · rw [if_pos (by simpa using h)] at hxy
      subst hxy
      exact hpres y hy h
    · rw [if_neg (by simpa using h)] at hxy
      subst hxy
      exact hok y hy

theorem lookupAlloc_bound {rs : List Reward} {cid now : Nat} {pts a : Int} {y : Reward}
    (hnd : (rs.map Reward.id).Nodup) (hy : y ∈ rs)
    (hl : lookupAlloc (fifoAlloc (candidateRewards rs cid now) pts) y.id = some a) :
    0 < a ∧ a ≤ y.points_earned - y.points_redeemed := by
  rw [lookupAlloc, Option.map_eq_some'] at hl
  obtain ⟨pr, hfind, hsnd⟩ := hl
  have hmem : pr ∈ fifoAlloc (candidateRewards rs cid now) pts :=
    List.mem_of_find?_eq_some hfind
  have hfst : pr.1 = y.id := by simpa using List.find?_some hfind
  have hmem2 : (pr.1, pr.2) ∈ fifoAlloc (candidateRewards rs cid now) pts := by
    rw [Prod.mk.eta]
    exact hmem
  obtain ⟨c, hc, hcid, hapos, hale⟩ :=
    fifoAlloc_mem (candidateRewards rs cid now) pts pr.1 pr.2 hmem2
  have hcrs : c ∈ rs := (mem_candidateRewards.mp hc).1
  have hcy : c = y := List.inj_on_of_nodup_map hnd hcrs hy (by rw [hcid, hfst])
  subst hcy
  subst hsnd
  exact ⟨hapos, hale⟩

theorem make_payment_WF (rs : List Reward) (ps : List Payment) (cid : Nat)
    (amt : Int) (product : CreditCardProduct) (now : Nat) (h : RewardsWF rs) :
    RewardsWF (make_payment rs ps cid amt product now).2.1 := by
  obtain ⟨hnd, hok⟩ := h
  simp only [make_payment]
  by_cases h1 : amt ≤ 0
  · rw [if_pos h1]
    exact ⟨hnd, hok⟩
  · rw [if_neg h1]
    by_cases h2 : 0 < calculate_reward_points amt product
    · rw [if_pos h2]
      constructor
      · exact append_fresh_nodup hnd (nextRewardId_fresh rs)
      · intro x hx
        rcases List.mem_append.mp hx with hx2 | hx2
        · exact hok x hx2
        · simp only [List.mem_singleton] at hx2
          subst hx2
          exact ⟨le_refl 0, le_of_lt h2⟩
    · rw [if_neg h2]
      exact ⟨hnd, hok⟩

theorem create_manual_reward_WF (rs : List Reward) (cid : Nat) (pts : Int)
    (expiryArg : Option Nat) (now : Nat) (h : RewardsWF rs) :
    RewardsWF (create_manual_reward rs cid pts expiryArg now).2 := by
  obtain ⟨hnd, hok⟩ := h
  simp only [create_manual_reward]
  by_cases h1 : pts ≤ 0
  · rw [if_pos h1]
    exact ⟨hnd, hok⟩
  · rw [if_neg h1]
    constructor
    · exact append_fresh_nodup hnd (nextRewardId_fresh rs)
    · intro x hx
      rcases List.mem_append.mp hx with hx2 | hx2
      · exact hok x hx2
      · simp only [List.mem_singleton] at hx2
        subst hx2
        exact ⟨le_refl 0, le_of_lt (not_le.mp h1)⟩

theorem redeem_reward_WF (rs : List Reward) (rid now : Nat) (ptsArg : Option Int)
    (h : RewardsWF rs) : RewardsWF (redeem_reward rs rid now ptsArg).2 := by
  obtain ⟨hnd, hok⟩ := h
  simp only [redeem_reward]
  rcases hf : rs.find? (fun r => r.id == rid) with _ | r
  · simp only [hf]
    exact ⟨hnd, hok⟩
  · simp only [hf]
    by_cases h1 : r.status ≠ RewardStatus.EARNED
    · rw [if_pos h1]
      exact ⟨hnd, hok⟩
    · rw [if_neg h1]
      by_cases h2 : (match r.expiry_date with
                     | some e => decide (e < now)
                     | none => false) = true
      · rw [if_pos h2]
        refine updateLot_WF hnd hok (fun q => rfl) ?_
        intro q hq _
        have := hok q hq
        simpa [setExpired, LotOK] using this
      · rw [if_neg h2]
        by_cases h3 : ptsArg.getD (r.points_earned - r.points_redeemed) ≤ 0
        · rw [if_pos h3]
          exact ⟨hnd, hok⟩
        · rw [if_neg h3]
          by_cases h4 : r.points_earned - r.points_redeemed <
              ptsArg.getD (r.points_earned - r.points_redeemed)
          · rw [if_pos h4]
            exact ⟨hnd, hok⟩
          · rw [if_neg h4]
            refine updateLot_WF hnd hok (fun q => rfl) ?_
            intro q hq hqid
            have hqr : q = r := find_id_unique hnd hf hq hqid
            subst hqr
            have := hok q hq
            simp only [LotOK, applyLotRedeem] at this ⊢
            omega

theorem rcp_WF (rs : List Reward) (cid now : Nat) (pts : Int)
    (h : RewardsWF rs) : RewardsWF (redeem_customer_points rs cid now pts).2 := by
  obtain ⟨hnd, hok⟩ := h
  by_cases h1 : pts ≤ 0
  · simp only [redeem_customer_points, h1, if_true]
    exact ⟨hnd, hok⟩
  · by_cases h2 : ((candidateRewards rs cid now).map fun r =>
        r.points_earned - r.points_redeemed).sum < pts
    · rw [rcp_insufficient rs cid now pts (by omega) h2]
      exact ⟨hnd, hok⟩
    · rw [rcp_enough rs cid now pts (by omega) (by omega)]
      constructor
      · unfold applyAllocs
        rw [map_ids_eq]
        · exact hnd
        · intro r _
          rcases hl : lookupAlloc (fifoAlloc (candidateRewards rs cid now) pts) r.id with _ | a
          · simp [hl]
          · simp [hl, applyCustRedeem]
      · intro x hx
        simp only [applyAllocs, List.mem_map] at hx
        obtain ⟨y, hy, hxy⟩ := hx
        rcases hl : lookupAlloc (fifoAlloc (candidateRewards rs cid now) pts) y.id with _ | a
        · rw [hl] at hxy
          subst hxy
          exact hok y hy
        · rw [hl] at hxy
          subst hxy
          obtain ⟨hapos, hale⟩ := lookupAlloc_bound hnd hy hl
          have := hok y hy
          simp only [LotOK, applyCustRedeem] at this ⊢
          omega

theorem refund_WF (rs : List Reward) (ps : List Payment) (pid : Nat)
    (refundArg : Option Int) (h : RewardsWF rs) :
    RewardsWF (refund_payment rs ps pid refundArg).2.1 := by
  obtain ⟨hnd, hok⟩ := h
  simp only [refund_payment]
  rcases hf : ps.find? (fun p => p.id == pid) with _ | p
  · simp only [hf]
    exact ⟨hnd, hok⟩
  · simp only [hf]
    by_cases h1 : p.status = PaymentStatus.REFUNDED
    · rw [if_pos h1]
      exact ⟨hnd, hok⟩
    · rw [if_neg h1]
      by_cases h2 : p.status ≠ PaymentStatus.COMPLETED
      · rw [if_pos h2]
        exact ⟨hnd, hok⟩
      · rw [if_neg h2]
        by_cases h3 : refundArg.getD p.amount ≤ 0 ∨ p.amount < refundArg.getD p.amount
        · rw [if_pos h3]
          exact ⟨hnd, hok⟩
        · rw [if_neg h3]
          push_neg at h3
          obtain ⟨hrpos, hrle⟩ := h3
          constructor
          · rw [map_ids_eq]
            · exact hnd
            · intro r _
              by_cases hq : r.payment_id == some pid
              · simp only [hq, if_true, clawback]
                by_cases hs : r.status = RewardStatus.EARNED
                · simp [hs]
                · simp [hs]
              · simp [hq]
          · intro x hx
            simp only [List.mem_map] at hx
            obtain ⟨y, hy, hxy⟩ := hx
            by_cases hq : y.payment_id == some pid
            · rw [if_pos hq] at hxy
              subst hxy
              have hyok := hok y hy
              simp only [clawback]
              by_cases hs : y.status = RewardStatus.EARNED
              · rw [if_pos hs]
                simp only [LotOK] at hyok ⊢
                have hpe : (0:Int) ≤ y.points_earned := by omega
                have hdn : 0 ≤ clawDeduct (refundArg.getD p.amount) p.amount
                    y.points_earned := by
                  simp only [clawDeduct, if_pos hpe]
                  exact Int.natCast_nonneg _
                constructor
                · exact le_min hpe hdn
                · exact min_le_left _ _
              · rw [if_neg hs]
                exact hyok
            · rw [if_neg hq] at hxy
              subst hxy
              exact hok y hy

theorem cancel_WF (rs : List Reward) (rid : Nat) (reason : String)
    (h : RewardsWF rs) : RewardsWF (cancel_points_redemption rs rid reason).2 := by
  obtain ⟨hnd, hok⟩ := h
  simp only [cancel_points_redemption]
  rcases hf : rs.find? (fun r => r.id == rid) with _ | r
  · simp only [hf]
    exact ⟨hnd, hok⟩
  · simp only [hf]
    by_cases h1 : r.status = RewardStatus.EARNED ∨ r.status = RewardStatus.REDEEMED
    · rw [if_pos h1]
      refine updateLot_WF hnd hok (fun q => rfl) ?_
      intro q hq _
      have := hok q hq
      simpa [LotOK] using this
    · rw [if_neg h1]
      exact ⟨hnd, hok⟩

theorem sweep_WF (rs : List Reward) (now : Nat) (h : RewardsWF rs) :
    RewardsWF (expire_rewards rs now).2 := by
  obtain ⟨hnd, hok⟩ := h
  simp only [expire_rewards]
  constructor
  · rw [map_ids_eq]
    · exact hnd
    · intro r _
      by_cases hc : isExpirable now r
      · simp [hc, setExpired]
      · simp [hc]
  · intro x hx
    simp only [List.mem_map] at hx
    obtain ⟨y, hy, hxy⟩ := hx
    by_cases hc : isExpirable now y
    · rw [if_pos hc] at hxy
      subst hxy
      have := hok y hy
      simpa [setExpired, LotOK] using this
    · rw [if_neg hc] at hxy
      subst hxy
      exact hok y hy

theorem applyOp_WF (op : LedgerOp) (s : LedgerState) (h : WF s) : WF (applyOp op s) := by
  cases op with
  | payment cid amt product now => exact make_payment_WF s.rewards s.payments cid amt product now h
  | manualReward cid pts expiryArg now => exact create_manual_reward_WF s.rewards cid pts expiryArg now h
  | lotRedeem rid now ptsArg => exact redeem_reward_WF s.rewards rid now ptsArg h
  | customerRedeem cid now pts => exact rcp_WF s.rewards cid now pts h
  | refund pid refundArg => exact refund_WF s.rewards s.payments pid refundArg h
  | cancel rid reason => exact cancel_WF s.rewards rid reason h
  | sweep now => exact sweep_WF s.rewards now h

theorem applyOps_WF (ops : List LedgerOp) (s : LedgerState) (h : WF s) :
    WF (applyOps ops s) := by
  induction ops generalizing s with
  | nil => exact h
  | cons op rest ih =>
    simp only [applyOps, List.foldl_cons]
    exact ih (applyOp op s) (applyOp_WF op s h)

/-- C1 (corrected).  The available balance returned by the balance
operation equals the spec's sum of (points_earned - points_redeemed)
over non-EXPIRED lots MINUS the points_redeemed of the customer's
EXPIRED lots, because the code's total_redeemed query has no status
filter; the sweep itself never changes points_redeemed.  A swept lot
therefore contributes nothing only when its points_redeemed is zero. -/
theorem balance_formula_amended (rs : List Reward) (cid : Nat) :
    available_points rs cid = specAvailable rs cid - expired_redeemed rs cid ∧
    ∀ now, ((expire_rewards rs now).2.map Reward.points_redeemed) =
      rs.map Reward.points_redeemed :=
  ⟨available_points_eq rs cid, fun now => sweep_preserves_redeemed rs now⟩

/-- C1 counterexample: an EARNED lot with 100 earned, 30 redeemed and a
past expiry is swept to EXPIRED with points_redeemed intact, after which
the code's available balance is -30 while the claimed formula gives 0. -/
theorem balance_formula_counterexample :
    (expire_rewards [preSweepLot] 10).2.map Reward.status = [RewardStatus.EXPIRED] ∧
    (expire_rewards [preSweepLot] 10).2.map Reward.points_redeemed = [30] ∧
    available_points (expire_rewards [preSweepLot] 10).2 4 = -30 ∧
    specAvailable (expire_rewards [preSweepLot] 10).2 4 = 0 := by
  refine ⟨by decide, by decide, by decide, by decide⟩

/-- C2 witness: with lots of 100/200/300 points earned on days 1/5/10,
redeeming 150 consumes the day-1 lot fully and 50 from the day-5 lot,
leaving the day-10 lot untouched. -/
theorem customer_redeem_fifo_allocation_witness :
    (0:Int) < 150 ∧
    (150:Int) ≤ ((candidateRewards fifoLots 1 20).map fun r =>
      r.points_earned - r.points_redeemed).sum ∧
    (redeem_customer_points fifoLots 1 20 150 =
      (Except.ok (specTake (candidateRewards fifoLots 1 20) 150),
       applyAllocs 20 (specTake (candidateRewards fifoLots 1 20) 150) fifoLots) ∧
     ((specTake (candidateRewards fifoLots 1 20) 150).map Prod.snd).sum = 150 ∧
     List.Sorted byDate (candidateRewards fifoLots 1 20) ∧
     (∀ r, r ∈ candidateRewards fifoLots 1 20 ↔ r ∈ fifoLots ∧ isRedeemable 1 20 r = true)) ∧
    specTake (candidateRewards fifoLots 1 20) 150 = [(1, 100), (2, 50)] ∧
    (redeem_customer_points fifoLots 1 20 150).2.map Reward.points_redeemed = [0, 100, 50] ∧
    (redeem_customer_points fifoLots 1 20 150).2.map Reward.status =
      [RewardStatus.EARNED, RewardStatus.REDEEMED, RewardStatus.EARNED] :=
  ⟨by decide, by decide,
   customer_redeem_fifo_allocation fifoLots 1 20 150 (by decide) (by decide),
   by decide, by decide, by decide⟩

/-- C3 counterexample: a lot with 80 of 100 points already redeemed by
the customer, refunded at 10 percent, ends with points_redeemed 10: the
refund DECREASED points_redeemed from 80 to 10, contradicting the claim
that the clawback only ever increases it. -/
theorem refund_clawback_counterexample :
    clawLot.points_redeemed = 80 ∧
    (refund_payment [clawLot] [clawPay] 7 (some 1000)).1 = Except.ok 1000 ∧
    (refund_payment [clawLot] [clawPay] 7 (some 1000)).2.1.map Reward.points_redeemed = [10] ∧
    ¬((80:Int) ≤ 10) := by
  refine ⟨rfl, rfl, by decide, by decide⟩

/-- C4 (code_bug).  Redeeming 100 of a 200-point lot and then cancelling
the redemption (status still EARNED, so the cancellation fee is zero)
restores nothing: the cancellation handler reports points_to_restore
equal to points_earned (200, not the 100 redeemed), but never decrements
points_redeemed or recomputes the status, so the available balance stays
at 100 instead of returning to 200 - contradicting the handler's own
stated purpose of restoring points. -/
theorem cancel_restores_nothing :
    available_points [cancelDemoLot] 1 = 200 ∧
    available_points cancelDemoAfter 1 = 100 ∧
    cancelDemoAfter.map Reward.points_redeemed = [100] ∧
    cancelDemoAfter.map Reward.status = [RewardStatus.EARNED] ∧
    (cancel_points_redemption cancelDemoAfter 1 "change of plans").1 =
      Except.ok { original_reward_id := 1, points_to_restore := 200,
                  cancellation_fee_points := 0, net_points_restored := 200 } ∧
    (cancel_points_redemption cancelDemoAfter 1 "change of plans").2.map
      Reward.points_redeemed = [100] ∧
    (cancel_points_redemption cancelDemoAfter 1 "change of plans").2.map
      Reward.status = [RewardStatus.EARNED] ∧
    available_points (cancel_points_redemption cancelDemoAfter 1 "change of plans").2 1 = 100 := by
  refine ⟨by decide, by decide, by decide, by decide, rfl, by decide, by decide, by decide⟩

/-- C5 (confirmed).  Starting from any well-formed ledger state (unique
lot ids and every lot satisfying the bounds), after any sequence of
payment-earn, manual-grant, single-lot redeem, customer-level redeem,
refund-clawback, cancellation and sweep operations, every lot still
satisfies 0 <= points_redeemed <= points_earned. -/
theorem lot_bounds_invariant (ops : List LedgerOp) (s : LedgerState) (h : WF s) :
    ∀ r ∈ (applyOps ops s).rewards, LotOK r :=
  (applyOps_WF ops s h).2

/-- C5 witness: a concrete seven-operation trace (earn by payment,
manual grant, customer redeem, partial refund, cancellation, lot redeem,
sweep) from the empty ledger keeps every lot within bounds. -/
theorem lot_bounds_invariant_witness :
    WF demoStart ∧ ∀ r ∈ (applyOps demoOps demoStart).rewards, LotOK r :=
  ⟨by decide, lot_bounds_invariant demoOps demoStart (by decide)⟩

/-- C6 (corrected).  Customer-level redeem, refund-clawback and
cancellation leave the stored state unchanged whenever they return an
error; single-lot redeem does too EXCEPT on its expired-lot path, where
it commits status := EXPIRED for the target lot before returning the
error. -/
theorem error_no_partial_write_amended (rs : List Reward) (ps : List Payment)
    (cid now : Nat) (pts : Int) (pid : Nat) (refundArg : Option Int)
    (ridc : Nat) (reason : String) (ridl nowl : Nat) (ptsArg : Option Int) :
    ((redeem_customer_points rs cid now pts).1.isOk = false →
      (redeem_customer_points rs cid now pts).2 = rs) ∧
    ((refund_payment rs ps pid refundArg).1.isOk = false →
      (refund_payment rs ps pid refundArg).2 = (rs, ps)) ∧
    ((cancel_points_redemption rs ridc reason).1.isOk = false →
      (cancel_points_redemption rs ridc reason).2 = rs) ∧
    ((redeem_reward rs ridl nowl ptsArg).1.isOk = false →
      (redeem_reward rs ridl nowl ptsArg).2 = rs ∨
        ((redeem_reward rs ridl nowl ptsArg).1 = Except.error LedgerError.rewardExpired ∧
         (redeem_reward rs ridl nowl ptsArg).2 = updateLot rs ridl setExpired)) :=
  ⟨fun h => rcp_err_state rs cid now pts h,
   fun h => refund_err_state rs ps pid refundArg h,
   fun h => cancel_err_state rs ridc reason h,
   fun h => lot_redeem_err_state rs ridl nowl ptsArg h⟩

/-- C6 witness: concrete erroring calls of all four operations, with
the expired-lot redeem falling in the documented exception branch. -/
theorem error_no_partial_write_amended_witness :
    (redeem_customer_points [expiredEarnedLot] 1 10 0).2 = [expiredEarnedLot] ∧
    (refund_payment [expiredEarnedLot] [] 7 none).2 = ([expiredEarnedLot], []) ∧
    (cancel_points_redemption [expiredEarnedLot] 99 "oops").2 = [expiredEarnedLot] ∧
    ((redeem_reward [expiredEarnedLot] 5 10 none).2 = [expiredEarnedLot] ∨
      ((redeem_reward [expiredEarnedLot] 5 10 none).1 =
         Except.error LedgerError.rewardExpired ∧
       (redeem_reward [expiredEarnedLot] 5 10 none).2 =
         updateLot [expiredEarnedLot] 5 setExpired)) := by
  have h := error_no_partial_write_amended [expiredEarnedLot] [] 1 10 0 7 none 99 "oops" 5 10 none
  exact ⟨h.1 (by decide), h.2.1 (by decide), h.2.2.1 (by decide), h.2.2.2 (by decide)⟩

/-- C6 counterexample: redeeming an EARNED lot whose expiry has passed
returns an error AND leaves the lot's status changed to EXPIRED, so the
call was not all-or-nothing. -/
theorem error_mutation_counterexample :
    (redeem_reward [expiredEarnedLot] 5 10 none).1 =
      Except.error LedgerError.rewardExpired ∧
    (redeem_reward [expiredEarnedLot] 5 10 none).2 ≠ [expiredEarnedLot] ∧
    (redeem_reward [expiredEarnedLot] 5 10 none).2.map Reward.status =
      [RewardStatus.EXPIRED] := by
  refine ⟨rfl, by decide, by decide⟩

/-- C7 witness: on lots totalling 600 available points, requesting 700
fails with the insufficient-points error leaving the lots unchanged,
while requesting 150 succeeds. -/
theorem customer_redeem_insufficient_iff_witness :
    ((0:Int) < 700 ∧
     ((redeem_customer_points fifoLots 1 20 700).1 =
        Except.error LedgerError.insufficientPoints ∧
      (redeem_customer_points fifoLots 1 20 700).2 = fifoLots)) ∧
    ((0:Int) < 150 ∧
     ∃ allocs, redeem_customer_points fifoLots 1 20 150 =
       (Except.ok allocs, applyAllocs 20 allocs fifoLots)) :=
  ⟨⟨by decide, (customer_redeem_insufficient_iff fifoLots 1 20 700 (by decide)).1.mpr (by decide)⟩,
   ⟨by decide, (customer_redeem_insufficient_iff fifoLots 1 20 150 (by decide)).2 (by decide)⟩⟩

/-- C7 counterexample: a request of 0 points does not exceed the
available balance, yet the call fails (with the must-be-positive error,
not the insufficient-points error) instead of succeeding, so the claim's
unrestricted quantification over requested amounts is false. -/
theorem insufficient_zero_counterexample :
    (redeem_customer_points [] 1 0 0).1.isOk = false ∧
    (redeem_customer_points [] 1 0 0).1 ≠ Except.error LedgerError.insufficientPoints ∧
    ¬(((candidateRewards [] 1 0).map fun r =>
        r.points_earned - r.points_redeemed).sum < 0) := by
  refine ⟨rfl, by decide, by decide⟩

/-- C8 (confirmed).  The expiration sweep changes nothing but statuses,
never touches points_redeemed, sets status EXPIRED exactly for the
EARNED lots whose expiry_date has passed, and running it a second time
with no new expirations in between (same asOf) expires zero lots and
changes no lot. -/
theorem sweep_idempotent_full (rs : List Reward) (now : Nat) :
    ((expire_rewards rs now).2.map forgetStatus) = rs.map forgetStatus ∧
    ((expire_rewards rs now).2.map Reward.points_redeemed) =
      rs.map Reward.points_redeemed ∧
    List.Forall₂ (fun r r2 =>
      r2.status = if isExpirable now r then RewardStatus.EXPIRED else r.status)
      rs (expire_rewards rs now).2 ∧
    expire_rewards (expire_rewards rs now).2 now = (0, (expire_rewards rs now).2) :=
  ⟨sweep_only_status rs now, sweep_preserves_redeemed rs now,
   sweep_status_char rs now, sweep_idem rs now⟩

/-- C9 counterexample: a completed 100-dollar payment on a BASIC card
at time 0 creates a lot whose expiry_date is day 365, not day 0 + 730 as
claimed. -/
theorem payment_expiry_counterexample :
    (make_payment [] [] 1 10000 CreditCardProduct.BASIC 0).2.1.map Reward.expiry_date =
      [some 365] ∧
    (make_payment [] [] 1 10000 CreditCardProduct.BASIC 0).2.1.map Reward.earned_date = [0] ∧
    (some 365 : Option Nat) ≠ some (0 + 730) := by
  refine ⟨by decide, by decide, by decide⟩

/-- C9 witness: the concrete 100-dollar BASIC-card payment at time 0. -/
theorem payment_lot_expiry_witness :
    (0:Int) < 10000 ∧
    (0:Int) < calculate_reward_points 10000 CreditCardProduct.BASIC ∧
    ((∃ r, (make_payment [] [] 1 10000 CreditCardProduct.BASIC 0).2.1 = [] ++ [r] ∧
       r.expiry_date = some (0 + 365) ∧ r.earned_date = 0 ∧
       r.payment_id = some (nextPaymentId []) ∧
       r.points_earned = calculate_reward_points 10000 CreditCardProduct.BASIC ∧
       r.points_redeemed = 0 ∧ r.status = RewardStatus.EARNED) ∧
     (∃ q, (make_payment [] [] 1 10000 CreditCardProduct.BASIC 0).2.2 = [] ++ [q] ∧
       q.status = PaymentStatus.COMPLETED ∧ q.amount = 10000)) :=
  ⟨by decide, by decide,
   payment_lot_expiry [] [] 1 10000 CreditCardProduct.BASIC 0 (by decide) (by decide)⟩

/-- C3 witness: a payment that earned 1000 unredeemed points, refunded
at 50 percent of its amount, leaves the lot with points_redeemed 500,
i.e. 500 points clawed back and 500 intact; additionally, a 3.00-dollar
payment earning 3 points refunded by 1.00 dollar claws back 0 points
(the 28-digit decimal computation truncates 0.9999...9 to 0, one below
the exact floor 1), matching the running program. -/
theorem refund_clawback_amended_witness :
    (List.find? (fun q => q.id == 11) [bigPay] = some bigPay ∧
     bigPay.status = PaymentStatus.COMPLETED ∧
     (0:Int) < (some (10000:Int)).getD bigPay.amount ∧
     (some (10000:Int)).getD bigPay.amount ≤ bigPay.amount) ∧
    (refund_payment [bigLot] [bigPay] 11 (some 10000)).1 = Except.ok 10000 ∧
    (refund_payment [bigLot] [bigPay] 11 (some 10000)).2.1.map Reward.points_redeemed =
      [500] ∧
    (refund_payment [bigLot] [bigPay] 11 (some 10000)).2.1.map Reward.points_earned =
      [1000] ∧
    clawDeduct 10000 20000 1000 = 500 ∧
    clawDeduct 100 300 3 = 0 ∧
    (refund_payment [triLot] [triPay] 9 (some 100)).2.1.map Reward.points_redeemed =
      [0] :=
  ⟨⟨rfl, rfl, by decide, by decide⟩,
   (refund_clawback_amended [bigLot] [bigPay] 11 (some 10000) bigPay rfl rfl
     (by decide) (by decide)).1,
   by decide, by decide, by decide, by decide, by decide⟩

/-- C10 witness: a lot with 80 earned and 30 redeemed, redeemed with no
explicit amount, returns 50 and ends fully redeemed with status
REDEEMED. -/
theorem lot_redeem_default_full_witness :
    (([partialLot].map Reward.id).Nodup ∧
     List.find? (fun q => q.id == 2) [partialLot] = some partialLot ∧
     partialLot.status = RewardStatus.EARNED ∧
     partialLot.points_redeemed < partialLot.points_earned) ∧
    (redeem_reward [partialLot] 2 10 none =
      (Except.ok (partialLot.points_earned - partialLot.points_redeemed),
       updateLot [partialLot] 2
         (applyLotRedeem 10 (partialLot.points_earned - partialLot.points_redeemed))) ∧
     ∀ x ∈ (redeem_reward [partialLot] 2 10 none).2, x.id = 2 →
       x.points_redeemed = x.points_earned ∧ x.status = RewardStatus.REDEEMED) ∧
    (redeem_reward [partialLot] 2 10 none).1 = Except.ok 50 ∧
    (redeem_reward [partialLot] 2 10 none).2.map Reward.points_redeemed = [80] ∧
    (redeem_reward [partialLot] 2 10 none).2.map Reward.status = [RewardStatus.REDEEMED] :=
  ⟨⟨by decide, rfl, rfl, by decide⟩,
   lot_redeem_default_full [partialLot] 2 10 partialLot (by decide) rfl rfl
     (fun e he => Option.noConfusion he) (by decide),
   rfl, by decide, by decide⟩
